import Mathlib

/-!
Shallow embedding of `src/C/test_button_debounce/button_debounce.c`
(a platform-independent state button debouncer for one 8-bit GPIO port).

The C struct `tDebouncer` holds `uint8_t` fields and a `uint8_t
state[MAX_BUTTON_CHECKS]` array.  Bytes are modelled as `Nat` (byte-valued in
every reachable state); the array is a `List Nat` whose length plays the role
of the compile-time constant `MAX_BUTTON_CHECKS`, which is a parameter of
`ButtonDebounceInit` here because the header defining it is not part of the
source tree.
-/

namespace Debounce

/-- One debouncer instance: mirrors the C `tDebouncer` struct. -/
structure tDebouncer where
  index : Nat
  debouncedState : Nat
  changed : Nat
  pullType : Nat
  state : List Nat

/-- Bitwise complement on a byte: models C `~x` stored back into a `uint8_t`
(for `x < 256` this is exactly the truncated complement). -/
def byteNot (x : Nat) : Nat := x ^^^ 0xFF

/-- The normalization step of `ButtonProcess`: `~(portStatus ^ pullType)`.
In the result, bit = 1 means "at rest / normal position", bit = 0 means
"changed state / pressed", independent of pull direction. -/
def normalize (pullType portStatus : Nat) : Nat := byteNot (portStatus ^^^ pullType)

/-- Models `ButtonDebounceInit`: `index = 0`, `debouncedState = 0xFF`,
`changed = 0x00`, stores the pull configuration and fills the state array
with `0xFF`. -/
def ButtonDebounceInit (MAX_BUTTON_CHECKS pulledUpButtons : Nat) : tDebouncer :=
  { index := 0
    debouncedState := 0xFF
    changed := 0x00
    pullType := pulledUpButtons
    state := List.replicate MAX_BUTTON_CHECKS 0xFF }

/-- Models `ButtonProcess`: normalize the raw byte, store it at `state[index]`,
recompute `debouncedState` as the AND (seeded with `0xFF`) of every entry of
the state array, advance `index` with wrap-around, and set
`changed = debouncedState ^ lastDebouncedState`. -/
def ButtonProcess (port : tDebouncer) (portStatus : Nat) : tDebouncer :=
  let lastDebouncedState := port.debouncedState
  let normalized := normalize port.pullType portStatus
  let newState := port.state.set port.index normalized
  let newDebounced := newState.foldl (fun a b => a &&& b) 0xFF
  let newIndex := if port.index + 1 ≥ newState.length then 0 else port.index + 1
  { index := newIndex
    debouncedState := newDebounced
    changed := newDebounced ^^^ lastDebouncedState
    pullType := port.pullType
    state := newState }

/-- Models `ButtonPressed`: `(changed & ~debouncedState) & GPIOButtonPins`. -/
def ButtonPressed (port : tDebouncer) (GPIOButtonPins : Nat) : Nat :=
  (port.changed &&& byteNot port.debouncedState) &&& GPIOButtonPins

/-- Models `ButtonReleased`: `(changed & debouncedState) & GPIOButtonPins`. -/
def ButtonReleased (port : tDebouncer) (GPIOButtonPins : Nat) : Nat :=
  (port.changed &&& port.debouncedState) &&& GPIOButtonPins

/-- Models `ButtonDebounceStateGet`: `~(debouncedState ^ pullType)`. -/
def ButtonDebounceStateGet (port : tDebouncer) : Nat :=
  byteNot (port.debouncedState ^^^ port.pullType)

/-- Feed a list of raw port samples through `ButtonProcess`, oldest first. -/
def runProcess (port : tDebouncer) (inputs : List Nat) : tDebouncer :=
  inputs.foldl ButtonProcess port

/-- A state is reachable when it arises from `ButtonDebounceInit` followed by
some sequence of `ButtonProcess` calls. -/
def Reachable (port : tDebouncer) : Prop :=
  ∃ MAX_BUTTON_CHECKS pullType inputs,
    port = runProcess (ButtonDebounceInit MAX_BUTTON_CHECKS pullType) inputs

/-- Bits of `byteNot`: the low 8 bits are complemented, higher bits kept. -/
theorem byteNot_testBit (x i : Nat) :
    (byteNot x).testBit i = (x.testBit i ^^ decide (i < 8)) := by
  have h : (0xFF : Nat) = 2 ^ 8 - 1 := by norm_num
  rw [byteNot, h, Nat.testBit_xor, Nat.testBit_two_pow_sub_one]

/-- Bits of the constant `0xFF`. -/
theorem testBit_255 (i : Nat) : Nat.testBit 0xFF i = decide (i < 8) := by
  have h : (0xFF : Nat) = 2 ^ 8 - 1 := by norm_num
  rw [h, Nat.testBit_two_pow_sub_one]

/-- A bit of a left fold of `&&&` is the conjunction of that bit over the seed
and all list elements. -/
theorem foldl_and_testBit (l : List Nat) (a i : Nat) :
    (l.foldl (fun x y => x &&& y) a).testBit i
      = (a.testBit i && l.all (fun s => s.testBit i)) := by
  induction l generalizing a with
  | nil => simp
  | cons b t ih =>
    simp only [List.foldl_cons, List.all_cons, ih, Nat.testBit_and]
    cases a.testBit i <;> cases b.testBit i <;> simp

/-- A left fold of `&&&` never exceeds its seed. -/
theorem foldl_and_le (l : List Nat) (a : Nat) :
    l.foldl (fun x y => x &&& y) a ≤ a := by
  induction l generalizing a with
  | nil => exact Nat.le_refl a
  | cons b t ih => exact Nat.le_trans (ih (a &&& b)) Nat.and_le_left

/-- Bytes have no bits at positions 8 and above. -/
theorem testBit_eq_false_of_byte {a i : Nat} (ha : a ≤ 0xFF) (hi : 8 ≤ i) :
    a.testBit i = false := by
  apply Nat.testBit_lt_two_pow
  have h1 : (2 : Nat) ^ 8 ≤ 2 ^ i := Nat.pow_le_pow_right (by omega) hi
  have h2 : (2 : Nat) ^ 8 = 256 := by norm_num
  omega

/-- `ButtonProcess` preserves the length of the state array. -/
theorem ButtonProcess_state_length (port : tDebouncer) (x : Nat) :
    (ButtonProcess port x).state.length = port.state.length := by
  simp [ButtonProcess]

/-- `ButtonProcess` leaves the pull configuration unchanged. -/
theorem ButtonProcess_pullType (port : tDebouncer) (x : Nat) :
    (ButtonProcess port x).pullType = port.pullType := rfl

/-- `runProcess` preserves the length of the state array. -/
theorem runProcess_state_length (inputs : List Nat) (port : tDebouncer) :
    (runProcess port inputs).state.length = port.state.length := by
  induction inputs generalizing port with
  | nil => rfl
  | cons x t ih =>
    show (runProcess (ButtonProcess port x) t).state.length = port.state.length
    rw [ih, ButtonProcess_state_length]

/-- `runProcess` leaves the pull configuration unchanged. -/
theorem runProcess_pullType (inputs : List Nat) (port : tDebouncer) :
    (runProcess port inputs).pullType = port.pullType := by
  induction inputs generalizing port with
  | nil => rfl
  | cons x t ih =>
    show (runProcess (ButtonProcess port x) t).pullType = port.pullType
    rw [ih, ButtonProcess_pullType]

/-- A processed state always has a byte-valued debounced state, because the
AND fold is seeded with `0xFF`. -/
theorem ButtonProcess_debounced_le (port : tDebouncer) (x : Nat) :
    (ButtonProcess port x).debouncedState ≤ 0xFF :=
  foldl_and_le _ _

/-- Runs keep the debounced state byte-valued. -/
theorem runProcess_debounced_le (inputs : List Nat) (port : tDebouncer)
    (h : port.debouncedState ≤ 0xFF) :
    (runProcess port inputs).debouncedState ≤ 0xFF := by
  induction inputs generalizing port with
  | nil => exact h
  | cons x t ih =>
    show (runProcess (ButtonProcess port x) t).debouncedState ≤ 0xFF
    exact ih _ (ButtonProcess_debounced_le port x)

/-- Every reachable state has a byte-valued debounced state. -/
theorem Reachable.debounced_le {port : tDebouncer} (h : Reachable port) :
    port.debouncedState ≤ 0xFF := by
  obtain ⟨N, p, inputs, rfl⟩ := h
  exact runProcess_debounced_le _ _ (Nat.le_refl 0xFF)

/-- Successor modulo: wrap to zero exactly when the residue is about to hit `N`. -/
theorem succ_mod_eq (k N : Nat) (hN : 1 ≤ N) :
    (k + 1) % N = if k % N + 1 = N then 0 else k % N + 1 := by
  have h1 : k % N < N := Nat.mod_lt _ (by omega)
  have h2 : (k + 1) % N = (k % N + 1) % N := by
    conv_lhs => rw [← Nat.mod_add_div k N, Nat.add_right_comm]
    rw [Nat.add_mul_mod_self_left]
  by_cases h : k % N + 1 = N
  · rw [h2, h, Nat.mod_self]
    simp
  · rw [h2, Nat.mod_eq_of_lt (by omega), if_neg h]

/-- When a residue is nonzero it is the predecessor's residue plus one. -/
theorem mod_pred_add_one {d N : Nat} (hd : d % N ≠ 0) : d % N = (d - 1) % N + 1 := by
  rcases Nat.eq_zero_or_pos N with h | h
  · subst h
    simp only [Nat.mod_zero] at hd ⊢
    omega
  · have h1 : d ≠ 0 := by
      intro h0
      subst h0
      simp at hd
    have h2 : N * ((d - 1) / N) + (d - 1) % N = d - 1 := Nat.div_add_mod _ _
    have h3 : (d - 1) % N < N := Nat.mod_lt _ h
    rcases Nat.lt_or_ge ((d - 1) % N + 1) N with h4 | h4
    · have h5 : d = ((d - 1) % N + 1) + N * ((d - 1) / N) := by omega
      conv_lhs => rw [h5]
      rw [Nat.add_mul_mod_self_left, Nat.mod_eq_of_lt h4]
    · have h5 : (d - 1) % N + 1 = N := by omega
      have h6 : d = N * ((d - 1) / N) + N := by omega
      have h7 : d % N = 0 := by
        conv_lhs => rw [h6]
        rw [Nat.add_mod, Nat.mul_mod_right, Nat.mod_self]
        simp
      exact absurd h7 hd

/-- Reading back the slot just written. -/
theorem getD_set_self (l : List Nat) (j v d : Nat) (h : j < l.length) :
    (l.set j v).getD j d = v := by
  rw [List.getD_eq_getElem _ _ (by simpa using h)]
  exact List.getElem_set_self _

/-- Writing one slot leaves every other slot unchanged. -/
theorem getD_set_ne (l : List Nat) (i j v d : Nat) (h : i ≠ j) :
    (l.set i v).getD j d = l.getD j d := by
  rcases Nat.lt_or_ge j l.length with hj | hj
  · rw [List.getD_eq_getElem _ _ (by simpa using hj), List.getD_eq_getElem _ _ hj]
    exact List.getElem_set_ne h _
  · rw [List.getD_eq_default _ _ (by simpa using hj), List.getD_eq_default _ _ hj]

/-- Reading a slot of a replicated list. -/
theorem getD_replicate_self (N j v d : Nat) (h : j < N) :
    (List.replicate N v).getD j d = v := by
  rw [List.getD_eq_getElem _ _ (by simpa using h)]
  exact List.getElem_replicate v _

/-- Quantifying over list members is quantifying over in-range `getD` reads. -/
theorem forall_mem_iff_getD (l : List Nat) (p : Nat → Prop) :
    (∀ s ∈ l, p s) ↔ ∀ j, j < l.length → p (l.getD j 0) := by
  constructor
  · intro h j hj
    rw [List.getD_eq_getElem _ _ hj]
    exact h _ (l.getElem_mem hj)
  · intro h s hs
    obtain ⟨⟨j, hj⟩, rfl⟩ := List.mem_iff_get.mp hs
    have he : l.get ⟨j, hj⟩ = l.getD j 0 := by
      rw [List.get_eq_getElem, List.getD_eq_getElem _ _ hj]
    rw [he]
    exact h j hj

/-- Appending one sample to a run is one more `ButtonProcess` step. -/
theorem runProcess_append (port : tDebouncer) (l : List Nat) (x : Nat) :
    runProcess port (l ++ [x]) = ButtonProcess (runProcess port l) x := by
  simp [runProcess, List.foldl_append]

/-- After `k` samples the write cursor is `k mod N`. -/
theorem runProcess_index (MAX_BUTTON_CHECKS pullType : Nat)
    (hN : 1 ≤ MAX_BUTTON_CHECKS) (inputs : List Nat) :
    (runProcess (ButtonDebounceInit MAX_BUTTON_CHECKS pullType) inputs).index
      = inputs.length % MAX_BUTTON_CHECKS := by
  induction inputs using List.reverseRecOn with
  | nil => simp [runProcess, ButtonDebounceInit]
  | append_singleton l x ih =>
    rw [runProcess_append]
    have hlen :
        (runProcess (ButtonDebounceInit MAX_BUTTON_CHECKS pullType) l).state.length
          = MAX_BUTTON_CHECKS := by
      rw [runProcess_state_length]
      simp [ButtonDebounceInit]
    simp only [ButtonProcess, List.length_set, hlen, ih, List.length_append,
      List.length_cons, List.length_nil]
    rw [succ_mod_eq _ _ hN]
    have hlt : l.length % MAX_BUTTON_CHECKS < MAX_BUTTON_CHECKS := Nat.mod_lt _ (by omega)
    by_cases h : l.length % MAX_BUTTON_CHECKS + 1 = MAX_BUTTON_CHECKS
    · simp [h]
    · have h2 : ¬ l.length % MAX_BUTTON_CHECKS + 1 ≥ MAX_BUTTON_CHECKS := by omega
      simp [h, h2]

/-- Ring-buffer content after a run: slot `j` holds the normalized form of the
most recent sample whose step number is congruent to `j` mod `N`, and still
holds the initial `0xFF` when no sample has reached that slot yet. -/
theorem runProcess_slot (MAX_BUTTON_CHECKS pullType : Nat)
    (hN : 1 ≤ MAX_BUTTON_CHECKS) (inputs : List Nat) :
    ∀ j, j < MAX_BUTTON_CHECKS →
      (runProcess (ButtonDebounceInit MAX_BUTTON_CHECKS pullType) inputs).state.getD j 0
        = if j < inputs.length then
            normalize pullType
              (inputs.getD
                (inputs.length - 1 - ((inputs.length - 1 - j) % MAX_BUTTON_CHECKS)) 0)
          else 0xFF := by
  induction inputs using List.reverseRecOn with
  | nil =>
    intro j hj
    simp only [List.length_nil]
    rw [if_neg (by omega)]
    exact getD_replicate_self _ _ _ _ hj
  | append_singleton l x ih =>
    intro j hj
    rw [runProcess_append]
    have hk := runProcess_index MAX_BUTTON_CHECKS pullType hN l
    have hpull : (runProcess (ButtonDebounceInit MAX_BUTTON_CHECKS pullType) l).pullType
        = pullType := by
      rw [runProcess_pullType]
      rfl
    have hlen :
        (runProcess (ButtonDebounceInit MAX_BUTTON_CHECKS pullType) l).state.length
          = MAX_BUTTON_CHECKS := by
      rw [runProcess_state_length]
      simp [ButtonDebounceInit]
    have hstate :
        (ButtonProcess (runProcess (ButtonDebounceInit MAX_BUTTON_CHECKS pullType) l) x).state
          = (runProcess (ButtonDebounceInit MAX_BUTTON_CHECKS pullType) l).state.set
              (l.length % MAX_BUTTON_CHECKS) (normalize pullType x) := by
      simp only [ButtonProcess]
      rw [hk, hpull]
    rw [hstate]
    simp only [List.length_append, List.length_cons, List.length_nil, Nat.add_sub_cancel]
    by_cases hj1 : j = l.length % MAX_BUTTON_CHECKS
    · subst hj1
      rw [getD_set_self _ _ _ _ (by omega)]
      have hmod0 : (l.length - l.length % MAX_BUTTON_CHECKS) % MAX_BUTTON_CHECKS = 0 := by
        have hdm : MAX_BUTTON_CHECKS * (l.length / MAX_BUTTON_CHECKS)
            + l.length % MAX_BUTTON_CHECKS = l.length := Nat.div_add_mod _ _
        have h0 : l.length - l.length % MAX_BUTTON_CHECKS
            = MAX_BUTTON_CHECKS * (l.length / MAX_BUTTON_CHECKS) := by omega
        rw [h0, Nat.mul_mod_right]
      have hle : l.length % MAX_BUTTON_CHECKS ≤ l.length := Nat.mod_le _ _
      rw [if_pos (by omega), hmod0, Nat.sub_zero,
        List.getD_append_right _ _ _ _ (Nat.le_refl _), Nat.sub_self, List.getD_cons_zero]
    · rw [getD_set_ne _ _ _ _ _ (fun h => hj1 h.symm), ih j hj]
      by_cases hjk : j < l.length
      · rw [if_pos hjk, if_pos (by omega)]
        have hmod : (l.length - j) % MAX_BUTTON_CHECKS ≠ 0 := by
          intro h0
          have hdm : MAX_BUTTON_CHECKS * ((l.length - j) / MAX_BUTTON_CHECKS)
              + (l.length - j) % MAX_BUTTON_CHECKS = l.length - j := Nat.div_add_mod _ _
          have h3 : l.length = j + MAX_BUTTON_CHECKS * ((l.length - j) / MAX_BUTTON_CHECKS) := by
            omega
          have h4 : l.length % MAX_BUTTON_CHECKS = j := by
            conv_lhs => rw [h3]
            rw [Nat.add_mul_mod_self_left, Nat.mod_eq_of_lt hj]
          exact hj1 h4.symm
        have hpred := mod_pred_add_one hmod
        have e1 : l.length - j - 1 = l.length - 1 - j := by omega
        rw [e1] at hpred
        have hidx : l.length - (l.length - j) % MAX_BUTTON_CHECKS
            = l.length - 1 - (l.length - 1 - j) % MAX_BUTTON_CHECKS := by omega
        have hidxlt : l.length - (l.length - j) % MAX_BUTTON_CHECKS < l.length := by omega
        rw [List.getD_append _ _ _ _ hidxlt, hidx]
      · have hne : j ≠ l.length := by
          intro h0
          apply hj1
          rw [h0, Nat.mod_eq_of_lt (h0 ▸ hj)]
        rw [if_neg hjk, if_neg (by omega)]

/-- Shifting by a residue inside a window of width `N` and reducing mod `N`
recovers the distance to `m` itself. -/
theorem sub_mod_mod (a m N : Nat) (hN : 1 ≤ N) (h1 : m ≤ a) (h2 : a < m + N) :
    (a - m % N) % N = a - m := by
  have hd : N * (m / N) + m % N = m := Nat.div_add_mod _ _
  have hr : m % N < N := Nat.mod_lt _ (by omega)
  have e1 : a - m % N = (a - m) + N * (m / N) := by omega
  rw [e1, Nat.add_mul_mod_self_left]
  exact Nat.mod_eq_of_lt (by omega)

/-- The debounced state of a run, bit by bit: `0xFF` AND every slot. -/
theorem runProcess_debounced_testBit (MAX_BUTTON_CHECKS pullType : Nat)
    (inputs : List Nat) (i : Nat) :
    (runProcess (ButtonDebounceInit MAX_BUTTON_CHECKS pullType)
        inputs).debouncedState.testBit i
      = (Nat.testBit 0xFF i
          && (runProcess (ButtonDebounceInit MAX_BUTTON_CHECKS pullType) inputs).state.all
              (fun s => s.testBit i)) := by
  induction inputs using List.reverseRecOn with
  | nil =>
    show Nat.testBit 0xFF i
      = (Nat.testBit 0xFF i
          && (List.replicate MAX_BUTTON_CHECKS 0xFF).all (fun s => s.testBit i))
    cases h : Nat.testBit 0xFF i with
    | false => simp
    | true =>
      rw [Bool.true_and]
      symm
      rw [List.all_eq_true]
      intro s hs
      have hs' : s = 0xFF := List.eq_of_mem_replicate hs
      subst hs'
      simpa using h
  | append_singleton l x ih =>
    rw [runProcess_append]
    exact foldl_and_testBit _ _ _

/-- A debounced bit is "at rest" exactly when the last `N` samples (all the
samples, when fewer than `N` have been fed) normalize to "at rest" there. -/
theorem runProcess_debounced_iff (MAX_BUTTON_CHECKS pullType : Nat)
    (hN : 1 ≤ MAX_BUTTON_CHECKS) (inputs : List Nat) (i : Nat) (hi : i < 8) :
    ((runProcess (ButtonDebounceInit MAX_BUTTON_CHECKS pullType)
          inputs).debouncedState.testBit i = true)
      ↔ (∀ m, m < inputs.length → inputs.length ≤ m + MAX_BUTTON_CHECKS →
          (normalize pullType (inputs.getD m 0)).testBit i = true) := by
  have hlen :
      (runProcess (ButtonDebounceInit MAX_BUTTON_CHECKS pullType) inputs).state.length
        = MAX_BUTTON_CHECKS := by
    rw [runProcess_state_length]
    simp [ButtonDebounceInit]
  have hslot := runProcess_slot MAX_BUTTON_CHECKS pullType hN inputs
  rw [runProcess_debounced_testBit, testBit_255, decide_eq_true hi, Bool.true_and,
    List.all_eq_true]
  constructor
  · intro h m hm1 hm2
    have hj : m % MAX_BUTTON_CHECKS < MAX_BUTTON_CHECKS := Nat.mod_lt _ (by omega)
    have hmle : m % MAX_BUTTON_CHECKS ≤ m := Nat.mod_le _ _
    have hs := hslot (m % MAX_BUTTON_CHECKS) hj
    rw [if_pos (by omega)] at hs
    have hidx : inputs.length - 1
        - ((inputs.length - 1 - m % MAX_BUTTON_CHECKS) % MAX_BUTTON_CHECKS) = m := by
      have h1 := sub_mod_mod (inputs.length - 1) m MAX_BUTTON_CHECKS hN (by omega) (by omega)
      rw [h1]
      omega
    rw [hidx] at hs
    have hjl : m % MAX_BUTTON_CHECKS
        < (runProcess (ButtonDebounceInit MAX_BUTTON_CHECKS pullType) inputs).state.length := by
      rw [hlen]
      exact hj
    have hb := h _
      ((runProcess (ButtonDebounceInit MAX_BUTTON_CHECKS pullType) inputs).state.getElem_mem hjl)
    rw [← List.getD_eq_getElem _ 0 hjl, hs] at hb
    exact hb
  · intro h s hs
    obtain ⟨⟨j, hjl⟩, rfl⟩ := List.mem_iff_get.mp hs
    have hj : j < MAX_BUTTON_CHECKS := hlen ▸ hjl
    have hsv := hslot j hj
    rw [List.get_eq_getElem, ← List.getD_eq_getElem _ 0 hjl, hsv]
    by_cases hjk : j < inputs.length
    · rw [if_pos hjk]
      have hr1 : (inputs.length - 1 - j) % MAX_BUTTON_CHECKS ≤ inputs.length - 1 - j :=
        Nat.mod_le _ _
      have hr2 : (inputs.length - 1 - j) % MAX_BUTTON_CHECKS < MAX_BUTTON_CHECKS :=
        Nat.mod_lt _ (by omega)
      exact h _ (by omega) (by omega)
    · rw [if_neg hjk, testBit_255]
      exact decide_eq_true hi

/-- XOR of two complements drops both complements. -/
theorem byteNot_xor_byteNot (x p : Nat) : byteNot x ^^^ byteNot p = x ^^^ p := by
  unfold byteNot
  rw [Nat.xor_assoc x 0xFF (p ^^^ 0xFF), Nat.xor_comm p 0xFF,
    ← Nat.xor_assoc 0xFF 0xFF p, Nat.xor_self, Nat.zero_xor]

/-- XOR with a complement is the complement of the XOR. -/
theorem xor_byteNot (a b : Nat) : a ^^^ byteNot b = byteNot (a ^^^ b) :=
  (Nat.xor_assoc a b 0xFF).symm

/-- Complementing both the raw sample and the pull configuration leaves the
normalized value unchanged. -/
theorem normalize_byteNot (pullType x : Nat) :
    normalize (byteNot pullType) (byteNot x) = normalize pullType x := by
  unfold normalize
  rw [byteNot_xor_byteNot]

/-- Mirror runs: complementing the pull configuration and every raw sample
drives two instances through identical internal states, apart from the stored
pull configuration which stays complemented. -/
theorem runProcess_mirror (xs : List Nat) :
    ∀ pA pB : tDebouncer,
      pB.pullType = byteNot pA.pullType →
      pB.state = pA.state →
      pB.index = pA.index →
      pB.debouncedState = pA.debouncedState →
      pB.changed = pA.changed →
      ((runProcess pB (xs.map byteNot)).pullType
          = byteNot (runProcess pA xs).pullType
        ∧ (runProcess pB (xs.map byteNot)).state = (runProcess pA xs).state
        ∧ (runProcess pB (xs.map byteNot)).index = (runProcess pA xs).index
        ∧ (runProcess pB (xs.map byteNot)).debouncedState
            = (runProcess pA xs).debouncedState
        ∧ (runProcess pB (xs.map byteNot)).changed = (runProcess pA xs).changed) := by
  induction xs with
  | nil =>
    intro pA pB h1 h2 h3 h4 h5
    exact ⟨h1, h2, h3, h4, h5⟩
  | cons x t ih =>
    intro pA pB h1 h2 h3 h4 h5
    show ((runProcess (ButtonProcess pB (byteNot x)) (t.map byteNot)).pullType
        = byteNot (runProcess (ButtonProcess pA x) t).pullType) ∧ _
    have hstate : (ButtonProcess pB (byteNot x)).state = (ButtonProcess pA x).state := by
      show pB.state.set pB.index (normalize pB.pullType (byteNot x))
        = pA.state.set pA.index (normalize pA.pullType x)
      rw [h1, h2, h3, normalize_byteNot]
    have hds : (ButtonProcess pB (byteNot x)).debouncedState
        = (ButtonProcess pA x).debouncedState := by
      show (ButtonProcess pB (byteNot x)).state.foldl (fun a b => a &&& b) 0xFF
        = (ButtonProcess pA x).state.foldl (fun a b => a &&& b) 0xFF
      rw [hstate]
    have hidx : (ButtonProcess pB (byteNot x)).index = (ButtonProcess pA x).index := by
      show (if pB.index + 1 ≥ (ButtonProcess pB (byteNot x)).state.length then 0
          else pB.index + 1)
        = (if pA.index + 1 ≥ (ButtonProcess pA x).state.length then 0 else pA.index + 1)
      rw [hstate, h3]
    have hch : (ButtonProcess pB (byteNot x)).changed = (ButtonProcess pA x).changed := by
      show (ButtonProcess pB (byteNot x)).debouncedState ^^^ pB.debouncedState
        = (ButtonProcess pA x).debouncedState ^^^ pA.debouncedState
      rw [hds, h4]
    have hpl : (ButtonProcess pB (byteNot x)).pullType
        = byteNot (ButtonProcess pA x).pullType := h1
    exact ih _ _ hpl hstate hidx hds hch

/-- C1 (counterexample to the claim as stated): with `N = 4` and pull
configuration `0xFF`, after one `ButtonProcess` call with raw byte `0xFE`,
bit 0 of `debouncedState` is 0 ("pressed") although three of the four history
slots still have that bit equal to 1 — so a debounced bit can be 0 without
all history slots being 0, and a slot at rest does not force the bit to 1. -/
theorem C1_counterexample :
    (runProcess (ButtonDebounceInit 4 0xFF) [0xFE]).debouncedState.testBit 0 = false
      ∧ ¬ (∀ s ∈ (runProcess (ButtonDebounceInit 4 0xFF) [0xFE]).state,
            s.testBit 0 = false) := by
  decide

/-- C1 (amended): after every `ButtonProcess` call, a bit of `debouncedState`
is 1 ("at rest") exactly when every history slot has that bit 1; equivalently,
any single slot with the bit 0 ("pressed") forces the debounced bit to 0 —
the consensus direction is the reverse of the claimed one. -/
theorem C1_debounced_invariant (port : tDebouncer) (x i : Nat) (hi : i < 8) :
    (ButtonProcess port x).debouncedState.testBit i = true
      ↔ ∀ s ∈ (ButtonProcess port x).state, s.testBit i = true := by
  have hds : (ButtonProcess port x).debouncedState
      = (ButtonProcess port x).state.foldl (fun a b => a &&& b) 0xFF := rfl
  rw [hds, foldl_and_testBit, testBit_255, decide_eq_true hi, Bool.true_and,
    List.all_eq_true]

/-- C1 witness: the amended invariant instantiated after one concrete call. -/
theorem C1_debounced_invariant_witness :
    0 < 8
      ∧ ((ButtonProcess (ButtonDebounceInit 4 0xFF) 0xFE).debouncedState.testBit 0 = true
          ↔ ∀ s ∈ (ButtonProcess (ButtonDebounceInit 4 0xFF) 0xFE).state,
              s.testBit 0 = true) :=
  ⟨by decide, C1_debounced_invariant (ButtonDebounceInit 4 0xFF) 0xFE 0 (by decide)⟩

/-- C2 (counterexample to the claim as stated): a raw sequence with a single
pressed sample (never 4 consecutive) flips bit 0 to pressed immediately, and
one subsequent at-rest sample does not flip it back. -/
theorem C2_counterexample :
    (runProcess (ButtonDebounceInit 4 0xFF) [0xFE]).debouncedState.testBit 0 = false
      ∧ (runProcess (ButtonDebounceInit 4 0xFF)
            [0xFE, 0xFE, 0xFE, 0xFE, 0xFF]).debouncedState.testBit 0 = false := by
  decide

/-- C2 (amended): for every bit and run from an initialized debouncer, the
debounced bit is 1 ("at rest") exactly when every one of the last `N` samples
(all samples, when fewer than `N` were fed) normalizes to at-rest at that
bit.  Hence the bit flips to pressed (0) after a single pressed sample, and
flips back to at-rest (1) only once `N` consecutive at-rest samples have been
fed — the asymmetry claimed by the spec, with the two directions swapped. -/
theorem C2_window_characterization (MAX_BUTTON_CHECKS pullType : Nat)
    (hN : 1 ≤ MAX_BUTTON_CHECKS) (inputs : List Nat) (i : Nat) (hi : i < 8) :
    ((runProcess (ButtonDebounceInit MAX_BUTTON_CHECKS pullType)
          inputs).debouncedState.testBit i = true)
      ↔ (∀ m, m < inputs.length → inputs.length ≤ m + MAX_BUTTON_CHECKS →
          (normalize pullType (inputs.getD m 0)).testBit i = true) :=
  runProcess_debounced_iff MAX_BUTTON_CHECKS pullType hN inputs i hi

/-- C2 witness: the window characterization instantiated on a concrete run. -/
theorem C2_window_characterization_witness :
    1 ≤ 4 ∧ 0 < 8
      ∧ (((runProcess (ButtonDebounceInit 4 0xFF)
              [0xFE, 0xFF, 0xFF, 0xFF, 0xFF]).debouncedState.testBit 0 = true)
          ↔ (∀ m, m < (5 : Nat) → (5 : Nat) ≤ m + 4 →
              (normalize 0xFF ([0xFE, 0xFF, 0xFF, 0xFF, 0xFF].getD m 0)).testBit 0
                = true)) :=
  ⟨by decide, by decide,
    C2_window_characterization 4 0xFF (by decide) [0xFE, 0xFF, 0xFF, 0xFF, 0xFF] 0
      (by decide)⟩

/-- C3 (counterexample to the claim as stated): in the spec's scenario
(`N = 4`, pull `0xFF`, four `process` calls with `0xFE`), `pressed(0xFF)`
returns `0x00` after the fourth call, not `0x01` — the press was reported
after the first call already. -/
theorem C3_counterexample :
    ¬ (ButtonPressed (runProcess (ButtonDebounceInit 4 0xFF)
          [0xFE, 0xFE, 0xFE, 0xFE]) 0xFF = 0x01) := by
  decide

/-- C3 (amended): in the scenario `N = 4`, pull `0xFF`, the code actually
gives: after four calls with `0xFE`, `debouncedState = 0xFE` but
`current_state() = 0xFE`, `pressed(0xFF) = 0x00` and `released(0xFF) = 0x00`;
the press is reported after the first call (`pressed(0xFF) = 0x01` there);
after one further call with `0xFF` the debounced state stays `0xFE` and
`released(0xFF) = 0x00`; only after four consecutive `0xFF` samples does
`debouncedState` return to `0xFF`, with `released(0xFF) = 0x01`. -/
theorem C3_scenario :
    (runProcess (ButtonDebounceInit 4 0xFF) [0xFE, 0xFE, 0xFE, 0xFE]).debouncedState = 0xFE
      ∧ ButtonDebounceStateGet
          (runProcess (ButtonDebounceInit 4 0xFF) [0xFE, 0xFE, 0xFE, 0xFE]) = 0xFE
      ∧ ButtonPressed
          (runProcess (ButtonDebounceInit 4 0xFF) [0xFE, 0xFE, 0xFE, 0xFE]) 0xFF = 0x00
      ∧ ButtonReleased
          (runProcess (ButtonDebounceInit 4 0xFF) [0xFE, 0xFE, 0xFE, 0xFE]) 0xFF = 0x00
      ∧ ButtonPressed (runProcess (ButtonDebounceInit 4 0xFF) [0xFE]) 0xFF = 0x01
      ∧ (runProcess (ButtonDebounceInit 4 0xFF)
            [0xFE, 0xFE, 0xFE, 0xFE, 0xFF]).debouncedState = 0xFE
      ∧ ButtonReleased
          (runProcess (ButtonDebounceInit 4 0xFF) [0xFE, 0xFE, 0xFE, 0xFE, 0xFF]) 0xFF
            = 0x00
      ∧ (runProcess (ButtonDebounceInit 4 0xFF)
            [0xFE, 0xFE, 0xFE, 0xFE, 0xFF, 0xFF, 0xFF, 0xFF]).debouncedState = 0xFF
      ∧ ButtonReleased
          (runProcess (ButtonDebounceInit 4 0xFF)
            [0xFE, 0xFE, 0xFE, 0xFE, 0xFF, 0xFF, 0xFF, 0xFF]) 0xFF = 0x01 := by
  decide

/-- C4 (counterexample to the claim as stated): a pressed pulled-up button
reads 0, not 1, in `current_state()`: after one pressed sample on bit 0
(pull-up), the debounced bit is pressed, yet the returned byte has bit 0 = 0. -/
theorem C4_counterexample :
    (runProcess (ButtonDebounceInit 4 0xFF) [0xFE]).debouncedState.testBit 0 = false
      ∧ (ButtonDebounceStateGet
          (runProcess (ButtonDebounceInit 4 0xFF) [0xFE])).testBit 0 = false := by
  decide

/-- C4 (amended): `current_state()` returns `NOT (debouncedState XOR
pullType)`, which restores the caller's raw electrical sense: a pressed
button's bit reads as the complement of its pull-configuration bit (0 when
pulled up, 1 when pulled down), not as 1 regardless of pull type. -/
theorem C4_current_state (port : tDebouncer) (i : Nat) (hi : i < 8)
    (hp : port.debouncedState.testBit i = false) :
    ButtonDebounceStateGet port = byteNot (port.debouncedState ^^^ port.pullType)
      ∧ (ButtonDebounceStateGet port).testBit i = !port.pullType.testBit i := by
  refine ⟨rfl, ?_⟩
  rw [ButtonDebounceStateGet, byteNot_testBit, Nat.testBit_xor, hp, decide_eq_true hi]
  cases port.pullType.testBit i <;> rfl

/-- C4 witness: the amended statement instantiated on a concrete pressed bit. -/
theorem C4_current_state_witness :
    0 < 8
      ∧ (runProcess (ButtonDebounceInit 4 0xFF) [0xFE]).debouncedState.testBit 0 = false
      ∧ (ButtonDebounceStateGet (runProcess (ButtonDebounceInit 4 0xFF) [0xFE])
            = byteNot ((runProcess (ButtonDebounceInit 4 0xFF) [0xFE]).debouncedState
                ^^^ (runProcess (ButtonDebounceInit 4 0xFF) [0xFE]).pullType)
          ∧ (ButtonDebounceStateGet
              (runProcess (ButtonDebounceInit 4 0xFF) [0xFE])).testBit 0
            = !(runProcess (ButtonDebounceInit 4 0xFF) [0xFE]).pullType.testBit 0) :=
  ⟨by decide, by decide,
    C4_current_state (runProcess (ButtonDebounceInit 4 0xFF) [0xFE]) 0 (by decide)
      (by decide)⟩

/-- C5 (counterexample to the claim as stated): a pull-up instance fed a
pressed sample and a pull-down instance fed the bitwise-inverted sample do
not produce identical `current_state()` outputs (`0x00` versus `0xFF`). -/
theorem C5_counterexample :
    ¬ (ButtonDebounceStateGet (runProcess (ButtonDebounceInit 1 0xFF) [0x00])
        = ButtonDebounceStateGet (runProcess (ButtonDebounceInit 1 0x00) [0xFF])) := by
  decide

/-- C5 (amended): feeding the bitwise-inverted raw sequence to an instance
with the complemented pull configuration yields the same `debouncedState`,
the same `changed`, and hence the same `pressed`/`released` outputs for every
mask, while the `current_state()` outputs are bitwise complements of each
other, not identical. -/
theorem C5_pull_symmetry (MAX_BUTTON_CHECKS pullType : Nat) (xs : List Nat) :
    (runProcess (ButtonDebounceInit MAX_BUTTON_CHECKS (byteNot pullType))
          (xs.map byteNot)).debouncedState
        = (runProcess (ButtonDebounceInit MAX_BUTTON_CHECKS pullType) xs).debouncedState
      ∧ (runProcess (ButtonDebounceInit MAX_BUTTON_CHECKS (byteNot pullType))
            (xs.map byteNot)).changed
          = (runProcess (ButtonDebounceInit MAX_BUTTON_CHECKS pullType) xs).changed
      ∧ (∀ mask,
          ButtonPressed
              (runProcess (ButtonDebounceInit MAX_BUTTON_CHECKS (byteNot pullType))
                (xs.map byteNot)) mask
            = ButtonPressed
                (runProcess (ButtonDebounceInit MAX_BUTTON_CHECKS pullType) xs) mask)
      ∧ (∀ mask,
          ButtonReleased
              (runProcess (ButtonDebounceInit MAX_BUTTON_CHECKS (byteNot pullType))
                (xs.map byteNot)) mask
            = ButtonReleased
                (runProcess (ButtonDebounceInit MAX_BUTTON_CHECKS pullType) xs) mask)
      ∧ ButtonDebounceStateGet
            (runProcess (ButtonDebounceInit MAX_BUTTON_CHECKS (byteNot pullType))
              (xs.map byteNot))
          = byteNot (ButtonDebounceStateGet
              (runProcess (ButtonDebounceInit MAX_BUTTON_CHECKS pullType) xs)) := by
  obtain ⟨hp, hs, hix, hd, hc⟩ :=
    runProcess_mirror xs (ButtonDebounceInit MAX_BUTTON_CHECKS pullType)
      (ButtonDebounceInit MAX_BUTTON_CHECKS (byteNot pullType)) rfl rfl rfl rfl rfl
  refine ⟨hd, hc, ?_, ?_, ?_⟩
  · intro mask
    rw [ButtonPressed, ButtonPressed, hc, hd]
  · intro mask
    rw [ButtonReleased, ButtonReleased, hc, hd]
  · rw [ButtonDebounceStateGet, ButtonDebounceStateGet, hd, hp, xor_byteNot]

/-- C6 (confirmed): one `ButtonProcess` call stores the normalized byte
`NOT (raw XOR pullType)` at the cursor slot, recomputes the debounced state
as the bitwise AND of all history entries, and sets `changed` to the XOR of
the new and the previous debounced state. -/
theorem C6_process_step (port : tDebouncer) (x i : Nat) (hi : i < 8) :
    (ButtonProcess port x).state
        = port.state.set port.index (byteNot (x ^^^ port.pullType))
      ∧ (ButtonProcess port x).debouncedState.testBit i
          = (ButtonProcess port x).state.all (fun s => s.testBit i)
      ∧ (ButtonProcess port x).changed
          = (ButtonProcess port x).debouncedState ^^^ port.debouncedState := by
  refine ⟨rfl, ?_, rfl⟩
  have h : (ButtonProcess port x).debouncedState
      = (ButtonProcess port x).state.foldl (fun a b => a &&& b) 0xFF := rfl
  rw [h, foldl_and_testBit, testBit_255, decide_eq_true hi, Bool.true_and]

/-- C6 witness: the step equations instantiated on a concrete call. -/
theorem C6_process_step_witness :
    0 < 8
      ∧ ((ButtonProcess (ButtonDebounceInit 4 0xFF) 0xFE).state
            = (ButtonDebounceInit 4 0xFF).state.set (ButtonDebounceInit 4 0xFF).index
                (byteNot (0xFE ^^^ (ButtonDebounceInit 4 0xFF).pullType))
          ∧ (ButtonProcess (ButtonDebounceInit 4 0xFF) 0xFE).debouncedState.testBit 0
              = (ButtonProcess (ButtonDebounceInit 4 0xFF) 0xFE).state.all
                  (fun s => s.testBit 0)
          ∧ (ButtonProcess (ButtonDebounceInit 4 0xFF) 0xFE).changed
              = (ButtonProcess (ButtonDebounceInit 4 0xFF) 0xFE).debouncedState
                  ^^^ (ButtonDebounceInit 4 0xFF).debouncedState) :=
  ⟨by decide, C6_process_step (ButtonDebounceInit 4 0xFF) 0xFE 0 (by decide)⟩

/-- C7 (confirmed): `ButtonDebounceInit` sets the cursor to 0, the debounced
state to `0xFF`, `changed` to `0x00` and every history entry to `0xFF`, and
before any `ButtonProcess` call both `pressed` and `released` return 0 for
every mask. -/
theorem C7_init (MAX_BUTTON_CHECKS pullType mask : Nat) :
    (ButtonDebounceInit MAX_BUTTON_CHECKS pullType).index = 0
      ∧ (ButtonDebounceInit MAX_BUTTON_CHECKS pullType).debouncedState = 0xFF
      ∧ (ButtonDebounceInit MAX_BUTTON_CHECKS pullType).changed = 0x00
      ∧ (ButtonDebounceInit MAX_BUTTON_CHECKS pullType).state.length
          = MAX_BUTTON_CHECKS
      ∧ (∀ s ∈ (ButtonDebounceInit MAX_BUTTON_CHECKS pullType).state, s = 0xFF)
      ∧ ButtonPressed (ButtonDebounceInit MAX_BUTTON_CHECKS pullType) mask = 0
      ∧ ButtonReleased (ButtonDebounceInit MAX_BUTTON_CHECKS pullType) mask = 0 := by
  refine ⟨rfl, rfl, rfl, ?_, ?_, ?_, ?_⟩
  · simp [ButtonDebounceInit]
  · intro s hs
    exact List.eq_of_mem_replicate hs
  · simp [ButtonPressed, ButtonDebounceInit]
  · simp [ButtonReleased, ButtonDebounceInit]

/-- C8 (confirmed): in every reachable state, no bit is reported both as
just-pressed and as just-released: `pressed(mask) & released(mask) = 0`. -/
theorem C8_mutual_exclusive (port : tDebouncer) (mask : Nat) (h : Reachable port) :
    ButtonPressed port mask &&& ButtonReleased port mask = 0 := by
  have hds := h.debounced_le
  apply Nat.eq_of_testBit_eq
  intro i
  simp only [ButtonPressed, ButtonReleased, Nat.testBit_and, byteNot_testBit,
    Nat.zero_testBit]
  by_cases hi8 : i < 8
  · cases hds2 : port.debouncedState.testBit i <;> simp [hi8, hds2]
  · have h0 : port.debouncedState.testBit i = false :=
      testBit_eq_false_of_byte hds (by omega)
    simp [hi8, h0]

/-- C8 witness: mutual exclusivity on a concrete reachable state. -/
theorem C8_mutual_exclusive_witness :
    Reachable (runProcess (ButtonDebounceInit 4 0xFF) [0xFE])
      ∧ ButtonPressed (runProcess (ButtonDebounceInit 4 0xFF) [0xFE]) 0xFF
          &&& ButtonReleased (runProcess (ButtonDebounceInit 4 0xFF) [0xFE]) 0xFF = 0 :=
  ⟨⟨4, 0xFF, [0xFE], rfl⟩,
    C8_mutual_exclusive (runProcess (ButtonDebounceInit 4 0xFF) [0xFE]) 0xFF
      ⟨4, 0xFF, [0xFE], rfl⟩⟩

/-- C9 (confirmed): masking is a homomorphism — for every debouncer state
whose `changed` field is byte-valued (as the `uint8_t` field always is),
`pressed(mask) = pressed(0xFF) & mask` and likewise for `released`. -/
theorem C9_masking (port : tDebouncer) (mask : Nat) (hch : port.changed ≤ 0xFF) :
    ButtonPressed port mask = ButtonPressed port 0xFF &&& mask
      ∧ ButtonReleased port mask = ButtonReleased port 0xFF &&& mask := by
  constructor <;>
  · apply Nat.eq_of_testBit_eq
    intro i
    simp only [ButtonPressed, ButtonReleased, Nat.testBit_and, byteNot_testBit,
      testBit_255]
    by_cases hi8 : i < 8
    · simp [hi8]
    · have h0 : port.changed.testBit i = false := testBit_eq_false_of_byte hch (by omega)
      simp [hi8, h0]

/-- C9 witness: the masking homomorphism on a concrete state and mask. -/
theorem C9_masking_witness :
    (runProcess (ButtonDebounceInit 4 0xFF) [0xFE]).changed ≤ 0xFF
      ∧ (ButtonPressed (runProcess (ButtonDebounceInit 4 0xFF) [0xFE]) 0x0F
            = ButtonPressed (runProcess (ButtonDebounceInit 4 0xFF) [0xFE]) 0xFF &&& 0x0F
          ∧ ButtonReleased (runProcess (ButtonDebounceInit 4 0xFF) [0xFE]) 0x0F
            = ButtonReleased (runProcess (ButtonDebounceInit 4 0xFF) [0xFE]) 0xFF
                &&& 0x0F) :=
  ⟨by decide,
    C9_masking (runProcess (ButtonDebounceInit 4 0xFF) [0xFE]) 0x0F (by decide)⟩

/-- C10 (confirmed): for every debouncer state whose `changed` field is
byte-valued (as the `uint8_t` field always is) and every mask,
`pressed(mask) | released(mask) = changed & mask`: each changed bit within
the mask is reported by exactly one of the two queries and no other bit is
reported at all. -/
theorem C10_changed_partition (port : tDebouncer) (mask : Nat)
    (hch : port.changed ≤ 0xFF) :
    ButtonPressed port mask ||| ButtonReleased port mask = port.changed &&& mask := by
  apply Nat.eq_of_testBit_eq
  intro i
  simp only [ButtonPressed, ButtonReleased, Nat.testBit_or, Nat.testBit_and,
    byteNot_testBit]
  by_cases hi8 : i < 8
  · cases hds2 : port.debouncedState.testBit i <;>
      cases hc : port.changed.testBit i <;> simp [hi8, hds2, hc]
  · have h0 : port.changed.testBit i = false := testBit_eq_false_of_byte hch (by omega)
    simp [hi8, h0]

/-- C10 witness: the partition identity on a concrete state and mask. -/
theorem C10_changed_partition_witness :
    (runProcess (ButtonDebounceInit 4 0xFF) [0xFE]).changed ≤ 0xFF
      ∧ ButtonPressed (runProcess (ButtonDebounceInit 4 0xFF) [0xFE]) 0xFF
            ||| ButtonReleased (runProcess (ButtonDebounceInit 4 0xFF) [0xFE]) 0xFF
          = (runProcess (ButtonDebounceInit 4 0xFF) [0xFE]).changed &&& 0xFF :=
  ⟨by decide,
    C10_changed_partition (runProcess (ButtonDebounceInit 4 0xFF) [0xFE]) 0xFF
      (by decide)⟩

end Debounce
